import Mathlib

/-!
Verification development for the ICMR STW crawler (src/crawler.py, src/utils.py).
The Python code is shallowly embedded: strings are Lean `String`s manipulated
through their character lists, the stateful crawl loop of `ICMRCrawler.crawl`
becomes a fueled step function over an explicit state, and filesystem writes
become an explicit effect list.  Python standard-library helpers used by the
code (`urllib.parse.urlparse`, `urllib.parse.urljoin`, `urllib.parse.unquote`,
`os.path.basename`, `os.path.splitext`, `str.lower`, `str.strip`, `int(...)`,
decimal rendering of `hash(...)`) are modelled below, restricted to the ASCII
inputs the crawler deals in; the doc comment of each model states the restriction.
-/

/-- Model of Python `str.lower` restricted to ASCII letters (the crawler only
compares ASCII URL text). -/
def lowerCh (c : Char) : Char :=
  if 'A' ≤ c ∧ c ≤ 'Z' then Char.ofNat (c.toNat + 32) else c

/-- Model of Python `str.lower` on a whole string (ASCII restriction as in
`lowerCh`). -/
def pyLower (s : String) : String :=
  ⟨s.toList.map lowerCh⟩

/-- Model of Python `str.endswith`: the suffix test used by
`url.lower().endswith(".pdf")` and the same test on filenames. -/
def pyEndsWith (s suf : String) : Bool :=
  suf.toList.isSuffixOf s.toList

/-- Model of the Python substring operator `sub in s` on strings. -/
def pyContains (s sub : String) : Bool :=
  decide (sub.toList <:+: s.toList)

/-- Characters stripped by Python `str.strip()` with no argument. -/
def pyWs (c : Char) : Bool :=
  c = ' ' || c = '\t' || c = '\n' || c = '\x0d' || c = '\x0b' || c = '\x0c'

/-- Model of Python `str.strip()`: drop leading and trailing whitespace. -/
def pyStrip (s : String) : String :=
  ⟨((s.toList.dropWhile pyWs).reverse.dropWhile pyWs).reverse⟩

/-- Model of `full_url.split("#")[0]`: the prefix of the string before the
first '#' (the whole string when no '#' occurs). -/
def stripFrag (s : String) : String :=
  ⟨s.toList.takeWhile (fun c => c != '#')⟩

/-- Decimal digit characters of a natural number, most significant first
(auxiliary for the model of Python decimal integer rendering). -/
def natDigitsAux : Nat → Nat → List Char
  | 0, _ => []
  | fuel + 1, n => if n = 0 then [] else natDigitsAux fuel (n / 10) ++ [Char.ofNat (48 + n % 10)]

/-- Decimal rendering of a natural number, as Python `str` produces it. -/
def pyNatRepr (n : Nat) : String :=
  if n = 0 then "0" else ⟨natDigitsAux (n + 1) n⟩

/-- Model of Python decimal rendering of an `int` (as used by the f-string
`f"document_{hash(url)}.pdf"`). -/
def pyIntRepr (i : Int) : String :=
  if i < 0 then "-" ++ pyNatRepr i.natAbs else pyNatRepr i.natAbs

/-- Model of Python `int(s)` on a string, restricted to an optional sign and
decimal digits surrounded by optional whitespace (underscore separators are
not modelled); `none` models the `ValueError` that `int` raises otherwise. -/
def pyToInt (s : String) : Option Int :=
  let t := (pyStrip s).toList
  let (neg, digits) :=
    match t with
    | '-' :: rest => (true, rest)
    | '+' :: rest => (false, rest)
    | rest => (false, rest)
  if digits = [] then none
  else if digits.all (fun c => c.isDigit) then
    let n : Nat := digits.foldl (fun acc c => acc * 10 + (c.toNat - 48)) 0
    some (if neg then -(n : Int) else (n : Int))
  else none

/-- Hexadecimal digit test, as `unquote` applies it to the two characters of
a percent-escape. -/
def isHexCh (c : Char) : Bool :=
  c.isDigit || ('a' ≤ c && c ≤ 'f') || ('A' ≤ c && c ≤ 'F')

/-- Numeric value of a hexadecimal digit character. -/
def hexVal (c : Char) : Nat :=
  if c.isDigit then c.toNat - 48 else (lowerCh c).toNat - 87

/-- Percent-decoding of a character list (auxiliary for the model of
`urllib.parse.unquote`, restricted to single-byte ASCII escapes). -/
def unquoteAux : List Char → List Char
  | [] => []
  | '%' :: h1 :: h2 :: rest =>
      if isHexCh h1 && isHexCh h2 then
        Char.ofNat (16 * hexVal h1 + hexVal h2) :: unquoteAux rest
      else '%' :: unquoteAux (h1 :: h2 :: rest)
  | c :: rest => c :: unquoteAux rest

/-- Model of `urllib.parse.unquote` restricted to single-byte (ASCII)
percent-escapes; multi-byte UTF-8 escape sequences are outside the model. -/
def pyUnquote (s : String) : String :=
  ⟨unquoteAux s.toList⟩

/-- Model of `os.path.basename` (POSIX flavour): the part of the path after
the last '/'. -/
def pyBasename (p : String) : String :=
  ⟨(p.toList.reverse.takeWhile (fun c => c != '/')).reverse⟩

/-- The characters removed by the regex substitution in `sanitize_filename`. -/
def illegalChars : List Char :=
  ['\\', '/', '*', '?', ':', '"', '<', '>', '|']

/-- Model of the regex substitution of `sanitize_filename`: every occurrence
of a character of the illegal class is deleted. -/
def removeIllegal (s : String) : String :=
  ⟨s.toList.filter (fun c => !(illegalChars.contains c))⟩

/-- Model of `os.path.splitext(name)[0]` on a basename: the part before the
last '.', except that the run of leading dots never starts an extension
(so `.pdf` has stem `.pdf` while `doc.pdf` has stem `doc`). -/
def pySplitextStem (name : String) : String :=
  let l := name.toList
  let leading := l.takeWhile (fun c => c = '.')
  let rest := l.drop leading.length
  if rest.contains '.' then
    ⟨leading ++ ((rest.reverse.dropWhile (fun c => c != '.')).drop 1).reverse⟩
  else name

/-- The result of `urllib.parse.urlparse`, as the crawler consumes it
(the `params` field is never used by the code and is not modelled). -/
structure PyUrl where
  scheme : String
  netloc : String
  path : String
  query : String
  fragment : String
deriving DecidableEq

/-- Characters allowed after the first letter of a URL scheme. -/
def schemeChar (c : Char) : Bool :=
  c.isAlpha || c.isDigit || c = '+' || c = '-' || c = '.'

/-- Model of `urllib.parse.urlparse` (via `urlsplit` semantics): an optional
scheme (a leading letter followed by scheme characters, up to ':',
lower-cased), an optional netloc after `//` running to the next '/', '?' or
'#', then the fragment after the first '#', the query after the first '?',
and the path in between.  The `params` split of `urlparse` is not modelled. -/
def pyUrlparse (url : String) : PyUrl :=
  let l := url.toList
  let pre := l.takeWhile (fun c => c != ':')
  let hasScheme :=
    decide (pre.length < l.length) &&
      (match pre with
       | [] => false
       | c :: cs => c.isAlpha && cs.all schemeChar)
  let afterScheme := if hasScheme then l.drop (pre.length + 1) else l
  let scheme : List Char := if hasScheme then pre.map lowerCh else []
  let hasNetloc := afterScheme.take 2 = ['/', '/']
  let netChar : Char → Bool := fun c => c != '/' && c != '?' && c != '#'
  let netloc : List Char := if hasNetloc then (afterScheme.drop 2).takeWhile netChar else []
  let rest := if hasNetloc then (afterScheme.drop 2).dropWhile netChar else afterScheme
  let beforeFrag := rest.takeWhile (fun c => c != '#')
  let fragment := (rest.dropWhile (fun c => c != '#')).drop 1
  let path := beforeFrag.takeWhile (fun c => c != '?')
  let query := (beforeFrag.dropWhile (fun c => c != '?')).drop 1
  ⟨⟨scheme⟩, ⟨netloc⟩, ⟨path⟩, ⟨query⟩, ⟨fragment⟩⟩

/-- The directory part of a URL path, up to and including the last '/' (or
"/" when the path has no '/'): auxiliary for the `urljoin` model. -/
def dirPart (p : String) : String :=
  let l := p.toList
  if l.contains '/' then ⟨(l.reverse.dropWhile (fun c => c != '/')).reverse⟩ else "/"

/-- Model of `urllib.parse.urljoin(base, url)` restricted to the cases the
crawler exercises: an absolute `url` carrying its own scheme is returned
unchanged, a protocol-relative `//...` reference inherits the base scheme, an
absolute path is resolved against the base authority, and a relative path is
resolved against the directory of the base path.  Dot-segment normalization
and query-only references are outside the model. -/
def urljoin (base url : String) : String :=
  if url = "" then base
  else if (pyUrlparse url).scheme ≠ "" then url
  else
    let pb := pyUrlparse base
    if url.startsWith "//" then pb.scheme ++ ":" ++ url
    else if url.startsWith "/" then pb.scheme ++ "://" ++ pb.netloc ++ url
    else pb.scheme ++ "://" ++ pb.netloc ++ dirPart pb.path ++ url

/-! Configuration constants of src/crawler.py. -/

def START_URL : String := "https://www.icmr.gov.in/standard-treatment-workflows-stws"

def DOMAIN : String := "icmr.gov.in"

def DOWNLOAD_DIR : String := "data/downloads"

def METADATA_DIR : String := "data/metadata"

def MIN_FILE_SIZE : Nat := 50 * 1024

def MAX_PAGES : Nat := 1000

/-! Models of src/utils.py. -/

/-- Model of `utils.sanitize_filename(url)`.  The Python built-in `hash` of the
URL string is salted per process (hash randomization), so its value is passed
in as the extra argument `hashVal`; everything else follows the source:
basename of the percent-decoded parsed path, illegal characters removed, a
(case-insensitively checked) ".pdf" suffix forced, and the
fallback name built from the hash when the name is empty or just
".pdf". -/
def sanitize_filename (url : String) (hashVal : Int) : String :=
  let parsed := pyUrlparse url
  let path := pyUnquote parsed.path
  let filename := pyBasename path
  let filename := removeIllegal filename
  let filename := if pyEndsWith (pyLower filename) ".pdf" then filename else filename ++ ".pdf"
  if filename = "" || filename = ".pdf" then
    "document_" ++ pyIntRepr hashVal ++ ".pdf"
  else filename

/-- The metadata dictionary written by `utils.generate_metadata`; the
`download_timestamp` produced by `datetime.now().isoformat()` is wall-clock
input and is passed in as a parameter. -/
structure MetaRecord where
  source_authority : String
  document_type : String
  original_url : String
  local_file_path : String
  download_timestamp : String
deriving DecidableEq

/-- Model of `utils.generate_metadata(url, local_path, output_dir)`: the JSON
path it writes to (`os.path.join` modelled as insertion of '/') and the
record it serializes; `ts` is the wall-clock timestamp. -/
def generate_metadata (url local_path ts output_dir : String) : String × MetaRecord :=
  let record : MetaRecord := ⟨"ICMR", "Standard Treatment Workflow", url, local_path, ts⟩
  let filename := pyBasename local_path
  let json_filename := pySplitextStem filename ++ ".json"
  (output_dir ++ "/" ++ json_filename, record)

/-! Models of src/crawler.py. -/

/-- Model of `ICMRCrawler.is_valid_url(url)`: http/https scheme only, then
accept when the netloc ends with the configured domain or is empty. -/
def is_valid_url (url : String) : Bool :=
  let parsed := pyUrlparse url
  if !(parsed.scheme = "http" || parsed.scheme = "https") then false
  else pyEndsWith parsed.netloc DOMAIN || parsed.netloc = ""

/-- Model of `ICMRCrawler.is_relevant_pdf(url)`: the lower-cased URL string
contains "/stws/", or the lower-cased basename of the parsed path contains
"stw". -/
def is_relevant_pdf (url : String) : Bool :=
  let url_lower := pyLower url
  if pyContains url_lower "/stws/" then true
  else
    let filename := pyLower (pyBasename (pyUrlparse url).path)
    if pyContains filename "stw" then true
    else false

/-- The response `process_pdf` obtains from `self.session.get(url, ...)`:
status code, the optional Content-Type and Content-Length headers, and the
body bytes that `iter_content` would deliver in full. -/
structure PdfResponse where
  status : Nat
  contentType : Option String
  contentLength : Option String
  body : List Nat
deriving DecidableEq

/-- A filesystem side effect of `process_pdf`: the document file write or the
metadata sidecar write. -/
inductive Effect where
  | fileWrite (path : String) (content : List Nat)
  | metaWrite (path : String) (record : MetaRecord)
deriving DecidableEq

/-- The two writes `process_pdf` performs on acceptance: the document file
under `DOWNLOAD_DIR` and the metadata record from `generate_metadata`. -/
def acceptWrites (url : String) (hashVal : Int) (ts : String) (body : List Nat) : List Effect :=
  let filename := sanitize_filename url hashVal
  let local_path := DOWNLOAD_DIR ++ "/" ++ filename
  let meta := generate_metadata url local_path ts METADATA_DIR
  [Effect.fileWrite local_path body, Effect.metaWrite meta.1 meta.2]

/-- The download phase of `process_pdf`: read the full body, reject when it
is below `MIN_FILE_SIZE`, otherwise write the file and the metadata. -/
def downloadPhase (url : String) (hashVal : Int) (ts : String) (body : List Nat) : List Effect :=
  if body.length < MIN_FILE_SIZE then [] else acceptWrites url hashVal ts body

/-- Model of `ICMRCrawler.process_pdf(url)`: the list of filesystem writes it
performs given the fetched response `r`.  Every rejection path (bad status,
non-PDF Content-Type, irrelevant URL, declared Content-Length below the
minimum, `int(...)` raising `ValueError` — caught by the except clause — or
an undersized body) produces no write.  `hashVal` is the per-process salted
`hash(url)` and `ts` the wall-clock timestamp, both inputs of the run. -/
def process_pdf (url : String) (hashVal : Int) (ts : String) (r : PdfResponse) : List Effect :=
  if r.status ≠ 200 then []
  else
    let content_type := pyLower (r.contentType.getD "")
    if !pyContains content_type "application/pdf" then []
    else if !is_relevant_pdf url then []
    else
      match r.contentLength with
      | none => downloadPhase url hashVal ts r.body
      | some cl =>
        if cl ≠ "" then
          match pyToInt cl with
          | none => []
          | some n => if n < (MIN_FILE_SIZE : Int) then [] else downloadPhase url hashVal ts r.body
        else downloadPhase url hashVal ts r.body

/-- What `self.session.get(url)` yields to the crawl loop for one URL: an
exception (network/timeout, caught by the except clause of the loop), or a
response with status, Content-Type header, and — when the body is HTML — the
href values of the anchors BeautifulSoup would find in it. -/
inductive FetchOutcome where
  | error
  | http (status : Nat) (contentType : String) (links : List String)

/-- Observable milestones of one crawl run: a URL entering the visited set,
a dispatch to the document processor `process_pdf`, and the HTML
parse-and-expand branch running for a page. -/
inductive CrawlEvent where
  | visitInsert (u : String)
  | pdfDispatch (u : String)
  | pageProcess (u : String)
deriving DecidableEq

/-- The state of `ICMRCrawler.crawl`: the frontier deque (front first), the
visited set (as a list), the `pages_crawled` counter, and the event trace. -/
structure CrawlState where
  queue : List String
  visited : List String
  pages : Nat
  trace : List CrawlEvent

/-- One href as the link loop of the HTML branch handles it: strip, resolve
against the page URL, drop the fragment, then admit subject to
`is_valid_url`, the visited check, and — for non-PDF URLs — the promising
keyword test.  Returns the URL appended to the frontier, if any. -/
def admitOne (base : String) (visited : List String) (href : String) : Option String :=
  let href := pyStrip href
  let full_url := urljoin base href
  let full_url := stripFrag full_url
  if !is_valid_url full_url then none
  else if pyEndsWith (pyLower full_url) ".pdf" then
    if full_url ∉ visited then some full_url else none
  else if full_url ∉ visited &&
      (pyContains full_url "standard-treatment-workflows" ||
       pyContains full_url "/stw" ||
       pyContains full_url "/STWs/" ||
       pyContains full_url "guidelines") then some full_url
  else none

/-- The URLs appended to the frontier while processing the links of one page, in
link order. -/
def admittedLinks (base : String) (visited : List String) (links : List String) : List String :=
  links.filterMap (admitOne base visited)

/-- One iteration of the `while` loop of `ICMRCrawler.crawl`, for a state
whose queue is non-empty: pop the front URL; a URL with a `.pdf` extension is
dispatched to `process_pdf` unless already visited; otherwise an unvisited
URL is fetched, and the outcome routed — failures and non-200 statuses are
swallowed, a PDF Content-Type goes to `process_pdf`, an HTML Content-Type
increments `pages_crawled` and enqueues the admitted links, anything else is
dropped. -/
def step (env : String → FetchOutcome) (s : CrawlState) : CrawlState :=
  match s.queue with
  | [] => s
  | u :: q =>
    if pyEndsWith (pyLower u) ".pdf" then
      if u ∈ s.visited then ⟨q, s.visited, s.pages, s.trace⟩
      else ⟨q, u :: s.visited, s.pages, s.trace ++ [CrawlEvent.visitInsert u, CrawlEvent.pdfDispatch u]⟩
    else if u ∈ s.visited then ⟨q, s.visited, s.pages, s.trace⟩
    else
      let visited := u :: s.visited
      match env u with
      | FetchOutcome.error => ⟨q, visited, s.pages, s.trace ++ [CrawlEvent.visitInsert u]⟩
      | FetchOutcome.http status ct links =>
        if status ≠ 200 then ⟨q, visited, s.pages, s.trace ++ [CrawlEvent.visitInsert u]⟩
        else if pyContains (pyLower ct) "application/pdf" then
          ⟨q, visited, s.pages, s.trace ++ [CrawlEvent.visitInsert u, CrawlEvent.pdfDispatch u]⟩
        else if pyContains (pyLower ct) "text/html" then
          ⟨q ++ admittedLinks u visited links, visited, s.pages + 1,
            s.trace ++ [CrawlEvent.visitInsert u, CrawlEvent.pageProcess u]⟩
        else ⟨q, visited, s.pages, s.trace ++ [CrawlEvent.visitInsert u]⟩

/-- The loop guard of `crawl`, negated: the run halts exactly when the
frontier is empty or `pages_crawled` has reached `MAX_PAGES`. -/
def halted (s : CrawlState) : Prop :=
  s.queue = [] ∨ MAX_PAGES ≤ s.pages

instance (s : CrawlState) : Decidable (halted s) := by
  unfold halted
  infer_instance

/-- The crawl loop with fuel: perform up to `n` iterations, stopping at the
loop guard. -/
def crawlRun (env : String → FetchOutcome) : Nat → CrawlState → CrawlState
  | 0, s => s
  | n + 1, s => if halted s then s else crawlRun env n (step env s)

/-- The initial state of `ICMRCrawler.crawl`: the frontier seeded with
`START_URL`, nothing visited, zero pages crawled. -/
def initState : CrawlState :=
  ⟨[START_URL], [], 0, []⟩

/-- The URLs a trace records as processed (admitted into the visited set), in
order. -/
def processedOrder (t : List CrawlEvent) : List String :=
  t.filterMap (fun e =>
    match e with
    | CrawlEvent.visitInsert u => some u
    | _ => none)

/-! Definitions used to state the claims. -/

/-- Test stating that a character survives outside the illegal class. -/
def legalCh (c : Char) : Bool := !(illegalChars.contains c)

/-- Formalization of the claim wording for `IsRelevantDocument`: the parsed
path (rather than the whole URL string) contains "/stws/" case-insensitively,
or the filename component of the path contains "stw" case-insensitively. -/
def IsRelevantDocument_spec (url : String) : Bool :=
  pyContains (pyLower (pyUrlparse url).path) "/stws/" ||
  pyContains (pyLower (pyBasename (pyUrlparse url).path)) "stw"

/-- Claim-side acceptance condition of `process_pdf`.  An empty-string
Content-Length value is grouped with the header-absent case, mirroring the
Python truthiness test `if content_length and ...`. -/
def clOK : Option String → Prop
  | none => True
  | some s => s = "" ∨ ∃ n : Int, pyToInt s = some n ∧ (MIN_FILE_SIZE : Int) ≤ n

/-- Acceptance predicate of the document processor: success status, a PDF
Content-Type, a relevant URL, an acceptable declared Content-Length, and a
full body of at least the minimum size. -/
def pdfAccepted (url : String) (r : PdfResponse) : Prop :=
  r.status = 200 ∧
  pyContains (pyLower (r.contentType.getD "")) "application/pdf" = true ∧
  is_relevant_pdf url = true ∧
  clOK r.contentLength ∧
  MIN_FILE_SIZE ≤ r.body.length

/-- The paths of the document file writes in an effect list. -/
def fileWritePaths (l : List Effect) : List String :=
  l.filterMap (fun e =>
    match e with
    | Effect.fileWrite p _ => some p
    | _ => none)

/-- A 200 PDF response with no declared Content-Length and a 51200-byte
body, used as the concrete fetch result in the collision counterexample. -/
def bigPdfResponse : PdfResponse :=
  ⟨200, some "application/pdf", none, List.replicate 51200 0⟩

/-- Number of occurrences of one crawl event in a trace. -/
def occ (e : CrawlEvent) (t : List CrawlEvent) : Nat := t.count e

/-- The at-most-once invariant: every URL has at most one visited-set
insertion, one document dispatch and one page processing in the trace, and a
URL not yet in the visited set has none of them. -/
def TraceInv (s : CrawlState) : Prop :=
  ∀ u : String,
    (occ (CrawlEvent.visitInsert u) s.trace ≤ 1 ∧
     occ (CrawlEvent.pdfDispatch u) s.trace ≤ 1 ∧
     occ (CrawlEvent.pageProcess u) s.trace ≤ 1) ∧
    (u ∉ s.visited →
      occ (CrawlEvent.visitInsert u) s.trace = 0 ∧
      occ (CrawlEvent.pdfDispatch u) s.trace = 0 ∧
      occ (CrawlEvent.pageProcess u) s.trace = 0)

/-- Environment for the FIFO ordering scenario: the seed page is HTML
carrying the given links, every other URL fails to fetch. -/
def abcEnv (links : List String) : String → FetchOutcome :=
  fun u => if u = START_URL then FetchOutcome.http 200 "text/html" links else FetchOutcome.error

/-! Basic facts about the string primitives. -/

lemma pyEndsWith_iff (s suf : String) : pyEndsWith s suf = true ↔ suf.toList <:+ s.toList := by
  simp [pyEndsWith, List.isSuffixOf_iff_suffix]

lemma pyEndsWith_self (s : String) : pyEndsWith s s = true :=
  (pyEndsWith_iff s s).mpr (List.suffix_refl _)

lemma pyEndsWith_append (x suf : String) : pyEndsWith (x ++ suf) suf = true := by
  rw [pyEndsWith_iff]
  rw [show (x ++ suf).toList = x.toList ++ suf.toList from rfl]
  exact List.suffix_append _ _

lemma pyLower_append (a b : String) : pyLower (a ++ b) = pyLower a ++ pyLower b := by
  apply String.ext_iff.mpr
  show List.map lowerCh ((a ++ b).toList) = _
  rw [show (a ++ b).toList = a.toList ++ b.toList from rfl, List.map_append]
  rfl

lemma toNat_ofNat_valid (n : Nat) (h : n.isValidChar) : (Char.ofNat n).toNat = n := by
  unfold Char.ofNat
  rw [dif_pos h]
  rfl

lemma legalCh_iff (c : Char) : legalCh c = true ↔ c ∉ illegalChars := by
  unfold legalCh
  rw [show illegalChars.contains c = List.elem c illegalChars from rfl]
  rw [List.elem_eq_mem]
  simp

lemma legalCh_of_digit_range (c : Char) (h1 : 45 ≤ c.toNat) (h2 : c.toNat ≤ 57)
    (h3 : c.toNat ≠ 47) : legalCh c = true := by
  rw [legalCh_iff]
  intro hd
  fin_cases hd <;> revert h1 h2 h3 <;> decide

lemma natDigitsAux_digit : ∀ (fuel n : Nat), ∀ c ∈ natDigitsAux fuel n,
    48 ≤ c.toNat ∧ c.toNat ≤ 57 := by
  intro fuel
  induction fuel with
  | zero => intro n c hc; simp [natDigitsAux] at hc
  | succ k ih =>
    intro n c hc
    simp only [natDigitsAux] at hc
    by_cases hn : n = 0
    · simp [hn] at hc
    · rw [if_neg hn, List.mem_append] at hc
      rcases hc with hc | hc
      · exact ih _ c hc
      · simp only [List.mem_singleton] at hc
        subst hc
        have h10 : n % 10 < 10 := Nat.mod_lt _ (by omega)
        rw [toNat_ofNat_valid _ (by left; omega)]
        omega

lemma pyNatRepr_legal (n : Nat) : (pyNatRepr n).toList.all legalCh = true := by
  unfold pyNatRepr
  by_cases hn : n = 0
  · rw [if_pos hn]; decide
  · rw [if_neg hn]
    rw [List.all_eq_true]
    intro c hc
    have := natDigitsAux_digit (n + 1) n c hc
    exact legalCh_of_digit_range c (by omega) (by omega) (by omega)

lemma pyIntRepr_legal (i : Int) : (pyIntRepr i).toList.all legalCh = true := by
  unfold pyIntRepr
  by_cases hi : i < 0
  · rw [if_pos hi]
    rw [show ("-" ++ pyNatRepr i.natAbs).toList = "-".toList ++ (pyNatRepr i.natAbs).toList from rfl]
    rw [List.all_append]
    rw [pyNatRepr_legal]
    decide
  · rw [if_neg hi]
    exact pyNatRepr_legal _

lemma removeIllegal_legal (s : String) : (removeIllegal s).toList.all legalCh = true := by
  rw [List.all_eq_true]
  intro c hc
  exact (List.mem_filter.mp hc).2

lemma pyLower_pdf : pyLower ".pdf" = ".pdf" := by decide

lemma append_pdf_ne_empty (x : String) : x ++ ".pdf" ≠ "" := by
  intro h
  have := congrArg String.data h
  rw [String.data_append] at this
  simp at this

lemma fallback_safe (hv : Int) :
    ("document_" ++ pyIntRepr hv ++ ".pdf") ≠ "" ∧
    pyEndsWith (pyLower ("document_" ++ pyIntRepr hv ++ ".pdf")) ".pdf" = true ∧
    ("document_" ++ pyIntRepr hv ++ ".pdf").toList.all legalCh = true := by
  refine ⟨append_pdf_ne_empty _, ?_, ?_⟩
  · rw [pyLower_append, pyLower_pdf]
    exact pyEndsWith_append _ _
  · rw [show ("document_" ++ pyIntRepr hv ++ ".pdf").toList
        = ("document_".toList ++ (pyIntRepr hv).toList) ++ ".pdf".toList from rfl]
    rw [List.all_append, List.all_append]
    rw [pyIntRepr_legal]
    decide

lemma sanitize_filename_props (url : String) (hv : Int) :
    sanitize_filename url hv ≠ "" ∧
    pyEndsWith (pyLower (sanitize_filename url hv)) ".pdf" = true ∧
    (sanitize_filename url hv).toList.all legalCh = true := by
  have hfb := fallback_safe hv
  have hlegal : (removeIllegal (pyBasename (pyUnquote (pyUrlparse url).path))).toList.all legalCh
      = true := removeIllegal_legal _
  simp only [sanitize_filename]
  set base := removeIllegal (pyBasename (pyUnquote (pyUrlparse url).path)) with hbase
  by_cases hpdf : pyEndsWith (pyLower base) ".pdf" = true
  · rw [if_pos hpdf]
    by_cases h2 : base = ".pdf"
    · rw [if_pos (show (decide (base = "") || decide (base = ".pdf")) = true by simp [h2])]
      exact hfb
    · have h1 : base ≠ "" := by
        intro h
        rw [h] at hpdf
        exact absurd hpdf (by decide)
      rw [if_neg (show ¬ ((decide (base = "") || decide (base = ".pdf")) = true) by simp [h1, h2])]
      exact ⟨h1, hpdf, hlegal⟩
  · rw [if_neg hpdf]
    by_cases h2 : base ++ ".pdf" = ".pdf"
    · rw [if_pos (show (decide (base ++ ".pdf" = "") || decide (base ++ ".pdf" = ".pdf")) = true
        by simp [h2])]
      exact hfb
    · have h1 : base ++ ".pdf" ≠ "" := append_pdf_ne_empty base
      rw [if_neg (show ¬ ((decide (base ++ ".pdf" = "") || decide (base ++ ".pdf" = ".pdf")) = true)
        by simp [h1, h2])]
      refine ⟨h1, ?_, ?_⟩
      · rw [pyLower_append, pyLower_pdf]
        exact pyEndsWith_append _ _
      · rw [show (base ++ ".pdf").toList = base.toList ++ ".pdf".toList from rfl]
        rw [List.all_append, hlegal]
        decide

/-- C10 counterexample: the fallback filename depends on the value of the
Python `hash` of the URL, which is salted per process, so the claim that any
two runs over the same URL produce the identical fallback filename fails:
with hash value 0 and hash value 1 the same URL yields different names. -/
theorem fallback_varies_with_hash :
    sanitize_filename "https://x/" 0 ≠ sanitize_filename "https://x/" 1 := by decide

/-- C10 amended: the fallback filename is deterministic only relative to the
hash value: whenever the decoded path basename is empty, the result is
exactly the string document_ followed by the decimal hash value and .pdf, so
within one process (one salt) re-runs agree, while across processes the salt
and hence the name may differ. -/
theorem fallback_determined_by_hash (url : String) (hv : Int)
    (h : pyBasename (pyUnquote (pyUrlparse url).path) = "") :
    sanitize_filename url hv = "document_" ++ pyIntRepr hv ++ ".pdf" := by
  simp only [sanitize_filename]
  rw [h]
  rw [show removeIllegal "" = "" from rfl]
  rw [if_neg (show ¬ (pyEndsWith (pyLower "") ".pdf" = true) by decide)]
  rw [if_pos (show (decide (("" : String) ++ ".pdf" = "") || decide (("" : String) ++ ".pdf" = ".pdf")) = true by decide)]

/-- Witness for C10 amended at a concrete URL and hash value. -/
theorem fallback_determined_by_hash_witness :
    sanitize_filename "https://x/" 7 = "document_" ++ pyIntRepr 7 ++ ".pdf" :=
  fallback_determined_by_hash "https://x/" 7 (by decide)

/-- C7 counterexample: `is_relevant_pdf` tests the whole URL string for
"/stws/", not just the path, so a URL whose query string contains the
segment is accepted although the claim (path contains "/stws/", or filename
contains "stw") rejects it. -/
theorem is_relevant_pdf_path_counterexample :
    is_relevant_pdf "https://x/report.pdf?from=/stws/" = true ∧
    IsRelevantDocument_spec "https://x/report.pdf?from=/stws/" = false := by
  constructor <;> decide

/-- C7 amended: `is_relevant_pdf` returns true iff the lower-cased URL
string (not only its path) contains "/stws/" or the lower-cased filename
component of the parsed path contains "stw"; the three concrete examples of
the claim hold as stated. -/
theorem is_relevant_pdf_characterization :
    (∀ url : String, is_relevant_pdf url =
      (pyContains (pyLower url) "/stws/" ||
       pyContains (pyLower (pyBasename (pyUrlparse url).path)) "stw")) ∧
    is_relevant_pdf "https://x/stws/doc1.pdf" = true ∧
    is_relevant_pdf "https://x/misc/report.pdf" = false ∧
    is_relevant_pdf "https://x/misc/stw_report.pdf" = true := by
  refine ⟨fun url => ?_, by decide, by decide, by decide⟩
  simp only [is_relevant_pdf]
  by_cases h1 : pyContains (pyLower url) "/stws/" = true
  · rw [if_pos h1, h1, Bool.true_or]
  · rw [if_neg h1]
    rw [Bool.not_eq_true] at h1
    rw [h1, Bool.false_or]
    by_cases h2 : pyContains (pyLower (pyBasename (pyUrlparse url).path)) "stw" = true
    · rw [if_pos h2, h2]
    · rw [if_neg h2]
      rw [Bool.not_eq_true] at h2
      rw [h2]

/-- C3: `is_valid_url` returns true iff the parsed scheme is http or https
and the parsed netloc equals the configured domain, is a suffix match of it,
or is empty; in particular it is false whenever the scheme is not
http or https, regardless of host. -/
theorem is_valid_url_characterization :
    (∀ url : String, is_valid_url url = true ↔
      (((pyUrlparse url).scheme = "http" ∨ (pyUrlparse url).scheme = "https") ∧
       ((pyUrlparse url).netloc = DOMAIN ∨ pyEndsWith (pyUrlparse url).netloc DOMAIN = true ∨
        (pyUrlparse url).netloc = ""))) ∧
    (∀ url : String, (pyUrlparse url).scheme ≠ "http" → (pyUrlparse url).scheme ≠ "https" →
      is_valid_url url = false) := by
  have main : ∀ url : String, is_valid_url url = true ↔
      (((pyUrlparse url).scheme = "http" ∨ (pyUrlparse url).scheme = "https") ∧
       ((pyUrlparse url).netloc = DOMAIN ∨ pyEndsWith (pyUrlparse url).netloc DOMAIN = true ∨
        (pyUrlparse url).netloc = "")) := by
    intro url
    simp only [is_valid_url]
    cases h4 : pyEndsWith (pyUrlparse url).netloc DOMAIN
    · have hnd : (pyUrlparse url).netloc ≠ DOMAIN := by
        intro hd
        rw [hd, pyEndsWith_self] at h4
        exact absurd h4 (by decide)
      by_cases h1 : (pyUrlparse url).scheme = "http" <;>
        by_cases h2 : (pyUrlparse url).scheme = "https" <;>
        by_cases h3 : (pyUrlparse url).netloc = "" <;>
        simp [h1, h2, h3, h4, hnd]
    · by_cases h1 : (pyUrlparse url).scheme = "http" <;>
        by_cases h2 : (pyUrlparse url).scheme = "https" <;>
        by_cases h3 : (pyUrlparse url).netloc = "" <;>
        simp [h1, h2, h3, h4]
  refine ⟨main, fun url hn1 hn2 => ?_⟩
  cases hv : is_valid_url url
  · rfl
  · have hm := (main url).mp hv
    rcases hm.1 with h | h
    · exact absurd h hn1
    · exact absurd h hn2

/-- Witness for C3 at a concrete non-http URL. -/
theorem is_valid_url_characterization_witness :
    (pyUrlparse "ftp://icmr.gov.in/x").scheme ≠ "http" ∧
    is_valid_url "ftp://icmr.gov.in/x" = false :=
  ⟨by decide, is_valid_url_characterization.2 "ftp://icmr.gov.in/x" (by decide) (by decide)⟩

lemma acceptWrites_ne_nil (url : String) (hv : Int) (ts : String) (body : List Nat) :
    acceptWrites url hv ts body ≠ [] := by
  simp [acceptWrites]

lemma process_pdf_spec (url : String) (hv : Int) (ts : String) (r : PdfResponse) :
    (process_pdf url hv ts r ≠ [] ↔ pdfAccepted url r) ∧
    (process_pdf url hv ts r = [] ∨ process_pdf url hv ts r = acceptWrites url hv ts r.body) := by
  obtain ⟨status, ct, cl, body⟩ := r
  have hacc := acceptWrites_ne_nil url hv ts body
  simp only [process_pdf, pdfAccepted, downloadPhase]
  by_cases h1 : status = 200
  case neg => simp [h1]
  case pos =>
  subst h1
  rw [if_neg (show ¬ ((200 : Nat) ≠ 200) by simp)]
  by_cases h2 : pyContains (pyLower (ct.getD "")) "application/pdf" = true
  case neg => simp [h2]
  case pos =>
  rw [if_neg (show ¬ ((!pyContains (pyLower (ct.getD "")) "application/pdf") = true) by simp [h2])]
  by_cases h3 : is_relevant_pdf url = true
  case neg => simp [h2, h3]
  case pos =>
  rw [if_neg (show ¬ ((!is_relevant_pdf url) = true) by simp [h3])]
  rcases cl with _ | cl
  · dsimp only
    by_cases h7 : body.length < MIN_FILE_SIZE
    · have h7n : ¬ MIN_FILE_SIZE ≤ body.length := by omega
      simp [h2, h3, h7, h7n, clOK]
    · have h7y : MIN_FILE_SIZE ≤ body.length := by omega
      simp [h2, h3, h7, h7y, clOK, hacc]
  · dsimp only
    by_cases h4 : cl = ""
    · subst h4
      rw [if_neg (show ¬ ¬ ("" : String) = "" by simp)]
      by_cases h7 : body.length < MIN_FILE_SIZE
      · have h7n : ¬ MIN_FILE_SIZE ≤ body.length := by omega
        simp [h2, h3, h7, h7n, clOK]
      · have h7y : MIN_FILE_SIZE ≤ body.length := by omega
        simp [h2, h3, h7, h7y, clOK, hacc]
    · rw [if_pos (show ¬ cl = "" from h4)]
      cases h5 : pyToInt cl with
      | none => simp [h2, h3, h4, h5, clOK]
      | some n =>
      dsimp only
      by_cases h6 : n < (MIN_FILE_SIZE : Int)
      · have h6n : ¬ (MIN_FILE_SIZE : Int) ≤ n := by omega
        simp [h2, h3, h4, h5, h6, h6n, clOK]
      · have h6y : (MIN_FILE_SIZE : Int) ≤ n := by omega
        rw [if_neg h6]
        by_cases h7 : body.length < MIN_FILE_SIZE
        · have h7n : ¬ MIN_FILE_SIZE ≤ body.length := by omega
          simp [h2, h3, h4, h5, h6y, h7, h7n, clOK]
        · have h7y : MIN_FILE_SIZE ≤ body.length := by omega
          simp [h2, h3, h4, h5, h6y, h7, h7y, clOK, hacc]

/-- C2: `process_pdf` performs its file write and metadata write iff the
status is 200, the Content-Type contains application/pdf, the URL is
relevant, the declared Content-Length (when present and non-empty) parses to
at least the 51200-byte minimum, and the fully read body is at least 51200
bytes; on every rejection path it performs no write at all. -/
theorem process_pdf_writes_iff (url : String) (hv : Int) (ts : String) (r : PdfResponse) :
    (process_pdf url hv ts r ≠ [] ↔ pdfAccepted url r) ∧
    (process_pdf url hv ts r = [] ∨ process_pdf url hv ts r = acceptWrites url hv ts r.body) :=
  process_pdf_spec url hv ts r

lemma process_pdf_eq_acceptWrites (url : String) (hv : Int) (ts : String) (r : PdfResponse)
    (h : pdfAccepted url r) :
    process_pdf url hv ts r = acceptWrites url hv ts r.body := by
  rcases (process_pdf_spec url hv ts r).2 with he | he
  · exact absurd he ((process_pdf_spec url hv ts r).1.mpr h)
  · exact he

lemma takeWhile_eq_self_of_all (p : Char → Bool) (l : List Char) (h : ∀ c ∈ l, p c = true) :
    l.takeWhile p = l :=
  List.takeWhile_eq_self_iff.mpr h

lemma pyBasename_dir_append (dir fn : String)
    (hfn : ∀ c ∈ fn.toList, (c != '/') = true) :
    pyBasename (dir ++ "/" ++ fn) = fn := by
  apply String.ext_iff.mpr
  show ((dir ++ "/" ++ fn).toList.reverse.takeWhile (fun c => c != '/')).reverse = fn.data
  rw [show (dir ++ "/" ++ fn).toList = (dir.toList ++ ['/']) ++ fn.toList from rfl]
  rw [List.reverse_append, List.reverse_append]
  rw [show (['/'] : List Char).reverse = ['/'] from rfl]
  rw [show (['/'] ++ dir.toList.reverse : List Char) = '/' :: dir.toList.reverse from rfl]
  rw [List.takeWhile_append]
  rw [takeWhile_eq_self_of_all _ _ (fun c hc => hfn c (List.mem_reverse.mp hc))]
  rw [if_pos rfl]
  rw [List.takeWhile_cons_of_neg (by decide)]
  rw [List.append_nil, List.reverse_reverse]
  rfl

lemma legalCh_ne_slash (c : Char) (hc : legalCh c = true) : (c != '/') = true := by
  rw [legalCh_iff] at hc
  simp only [bne_iff_ne, ne_eq]
  intro he
  subst he
  exact hc (by decide)

lemma bigPdfResponse_accepted (url : String) (hrel : is_relevant_pdf url = true) :
    pdfAccepted url bigPdfResponse := by
  refine ⟨rfl, by decide, hrel, trivial, ?_⟩
  show MIN_FILE_SIZE ≤ (List.replicate 51200 0).length
  rw [List.length_replicate]
  decide

/-- C8 counterexample: two distinct URLs, both accepted with a 51200-byte
PDF response, derive the same sanitized filename and hence the same document
file path, so the later acceptance overwrites the earlier file. -/
theorem filename_collision_counterexample :
    ("https://a.icmr.gov.in/stws/doc.pdf" : String) ≠ "https://b.icmr.gov.in/stws/doc.pdf" ∧
    fileWritePaths (process_pdf "https://a.icmr.gov.in/stws/doc.pdf" 0 "t" bigPdfResponse)
      = ["data/downloads/doc.pdf"] ∧
    fileWritePaths (process_pdf "https://b.icmr.gov.in/stws/doc.pdf" 0 "t" bigPdfResponse)
      = ["data/downloads/doc.pdf"] := by
  refine ⟨by decide, ?_, ?_⟩ <;>
  · rw [process_pdf_eq_acceptWrites _ _ _ _ (bigPdfResponse_accepted _ (by decide))]
    decide

/-- C9: for every URL and hash value, `sanitize_filename` returns a
non-empty name that ends (case-insensitively) in .pdf and contains none of
the illegal characters. -/
theorem sanitize_filename_safe (url : String) (hv : Int) :
    sanitize_filename url hv ≠ "" ∧
    pyEndsWith (pyLower (sanitize_filename url hv)) ".pdf" = true ∧
    (sanitize_filename url hv).toList.all legalCh = true :=
  sanitize_filename_props url hv

/-- C8 amended: every accepted document produces exactly one file write and
one metadata write, keyed by the same base filename (the metadata sidecar is
the splitext stem of the stored filename plus .json); distinct accepted URLs
are however not guaranteed distinct filenames. -/
theorem accepted_document_record_shape (url : String) (hv : Int) (ts : String) (r : PdfResponse)
    (h : pdfAccepted url r) :
    process_pdf url hv ts r =
      [Effect.fileWrite (DOWNLOAD_DIR ++ "/" ++ sanitize_filename url hv) r.body,
       Effect.metaWrite
         (METADATA_DIR ++ "/" ++ (pySplitextStem (sanitize_filename url hv) ++ ".json"))
         ⟨"ICMR", "Standard Treatment Workflow", url,
          DOWNLOAD_DIR ++ "/" ++ sanitize_filename url hv, ts⟩] := by
  rw [process_pdf_eq_acceptWrites url hv ts r h]
  have hfn : ∀ c ∈ (sanitize_filename url hv).toList, (c != '/') = true := by
    intro c hc
    apply legalCh_ne_slash
    have hall := (sanitize_filename_props url hv).2.2
    rw [List.all_eq_true] at hall
    exact hall c hc
  unfold acceptWrites generate_metadata
  dsimp only
  rw [pyBasename_dir_append _ _ hfn]

/-- Witness for C8 amended at a concrete accepted URL. -/
theorem accepted_document_record_shape_witness :
    process_pdf "https://a.icmr.gov.in/stws/doc.pdf" 0 "t" bigPdfResponse =
      [Effect.fileWrite
         (DOWNLOAD_DIR ++ "/" ++ sanitize_filename "https://a.icmr.gov.in/stws/doc.pdf" 0)
         bigPdfResponse.body,
       Effect.metaWrite
         (METADATA_DIR ++ "/"
           ++ (pySplitextStem (sanitize_filename "https://a.icmr.gov.in/stws/doc.pdf" 0) ++ ".json"))
         ⟨"ICMR", "Standard Treatment Workflow", "https://a.icmr.gov.in/stws/doc.pdf",
          DOWNLOAD_DIR ++ "/" ++ sanitize_filename "https://a.icmr.gov.in/stws/doc.pdf" 0, "t"⟩] :=
  accepted_document_record_shape "https://a.icmr.gov.in/stws/doc.pdf" 0 "t" bigPdfResponse
    (bigPdfResponse_accepted _ (by decide))

/-! Step lemmas for the crawl loop. -/

lemma crawlRun_zero (env : String → FetchOutcome) (s : CrawlState) : crawlRun env 0 s = s := rfl

lemma crawlRun_succ_eq (env : String → FetchOutcome) (n : Nat) (s : CrawlState) :
    crawlRun env (n + 1) s = if halted s then s else crawlRun env n (step env s) := rfl

lemma step_nil (env : String → FetchOutcome) (s : CrawlState) (hq : s.queue = []) :
    step env s = s := by
  unfold step
  rw [hq]

lemma step_visited (env : String → FetchOutcome) (s : CrawlState) (u : String) (q : List String)
    (hq : s.queue = u :: q) (hv : u ∈ s.visited) :
    step env s = ⟨q, s.visited, s.pages, s.trace⟩ := by
  unfold step
  rw [hq]
  dsimp only
  by_cases hp : pyEndsWith (pyLower u) ".pdf" = true
  · rw [if_pos hp, if_pos hv]
  · rw [if_neg hp, if_pos hv]

lemma step_unvisited (env : String → FetchOutcome) (s : CrawlState) (u : String) (q : List String)
    (hq : s.queue = u :: q) (hv : u ∉ s.visited) :
    (step env s).visited = u :: s.visited ∧
    (∃ d, (step env s).trace = s.trace ++ d ∧
      (d = [CrawlEvent.visitInsert u] ∨
       d = [CrawlEvent.visitInsert u, CrawlEvent.pdfDispatch u] ∨
       d = [CrawlEvent.visitInsert u, CrawlEvent.pageProcess u])) ∧
    (((step env s).queue = q ∧ (step env s).pages = s.pages) ∨
     (∃ links, (step env s).queue = q ++ admittedLinks u (u :: s.visited) links ∧
      (step env s).pages = s.pages + 1)) := by
  unfold step
  rw [hq]
  dsimp only
  by_cases hp : pyEndsWith (pyLower u) ".pdf" = true
  · rw [if_pos hp, if_neg hv]
    exact ⟨rfl, ⟨_, rfl, Or.inr (Or.inl rfl)⟩, Or.inl ⟨rfl, rfl⟩⟩
  · rw [if_neg hp, if_neg hv]
    cases he : env u with
    | error => exact ⟨rfl, ⟨_, rfl, Or.inl rfl⟩, Or.inl ⟨rfl, rfl⟩⟩
    | http status ct links =>
      dsimp only
      by_cases h200 : status ≠ 200
      · rw [if_pos h200]
        exact ⟨rfl, ⟨_, rfl, Or.inl rfl⟩, Or.inl ⟨rfl, rfl⟩⟩
      · rw [if_neg h200]
        by_cases hct : pyContains (pyLower ct) "application/pdf" = true
        · rw [if_pos hct]
          exact ⟨rfl, ⟨_, rfl, Or.inr (Or.inl rfl)⟩, Or.inl ⟨rfl, rfl⟩⟩
        · rw [if_neg hct]
          by_cases hh : pyContains (pyLower ct) "text/html" = true
          · rw [if_pos hh]
            exact ⟨rfl, ⟨_, rfl, Or.inr (Or.inr rfl)⟩, Or.inr ⟨links, rfl, rfl⟩⟩
          · rw [if_neg hh]
            exact ⟨rfl, ⟨_, rfl, Or.inl rfl⟩, Or.inl ⟨rfl, rfl⟩⟩

lemma step_cases_pages (env : String → FetchOutcome) (s : CrawlState) (u : String)
    (q : List String) (hq : s.queue = u :: q) :
    ((step env s).queue = q ∧ (step env s).pages = s.pages) ∨
    (step env s).pages = s.pages + 1 := by
  by_cases hv : u ∈ s.visited
  · rw [step_visited env s u q hq hv]
    exact Or.inl ⟨rfl, rfl⟩
  · obtain ⟨_, _, hqp⟩ := step_unvisited env s u q hq hv
    rcases hqp with ⟨h1, h2⟩ | ⟨_, _, h2⟩
    · exact Or.inl ⟨h1, h2⟩
    · exact Or.inr h2

lemma crawl_reaches_halt (env : String → FetchOutcome) : ∀ (k m : Nat) (s : CrawlState),
    MAX_PAGES - s.pages ≤ k → s.queue.length ≤ m → ∃ n, halted (crawlRun env n s) := by
  intro k
  induction k with
  | zero =>
    intro m s hk _
    refine ⟨0, ?_⟩
    rw [crawlRun_zero]
    exact Or.inr (by omega)
  | succ k ihk =>
    intro m
    induction m with
    | zero =>
      intro s hk hm
      refine ⟨0, ?_⟩
      rw [crawlRun_zero]
      exact Or.inl (List.eq_nil_of_length_eq_zero (by omega))
    | succ m ihm =>
      intro s hk hm
      by_cases hh : halted s
      · exact ⟨0, hh⟩
      · have hne : s.queue ≠ [] := fun he => hh (Or.inl he)
        obtain ⟨u, q, hq⟩ := List.exists_cons_of_ne_nil hne
        have hpages : s.pages < MAX_PAGES := by
          rcases Nat.lt_or_ge s.pages MAX_PAGES with h | h
          · exact h
          · exact absurd (Or.inr h) hh
        have hql : q.length ≤ m := by
          rw [hq] at hm
          simp only [List.length_cons] at hm
          omega
        rcases step_cases_pages env s u q hq with ⟨hq2, hp2⟩ | hp2
        · obtain ⟨n, hn⟩ := ihm (step env s) (by rw [hp2]; exact hk) (by rw [hq2]; exact hql)
          exact ⟨n + 1, by rw [crawlRun_succ_eq, if_neg hh]; exact hn⟩
        · obtain ⟨n, hn⟩ := ihk (step env s).queue.length (step env s)
            (by rw [hp2]; omega) (le_refl _)
          exact ⟨n + 1, by rw [crawlRun_succ_eq, if_neg hh]; exact hn⟩

lemma crawlRun_succ_of_not_halted (env : String → FetchOutcome) :
    ∀ (n : Nat) (s : CrawlState), ¬ halted (crawlRun env n s) →
    crawlRun env (n + 1) s = step env (crawlRun env n s) := by
  intro n
  induction n with
  | zero =>
    intro s h
    rw [crawlRun_zero] at h
    rw [crawlRun_succ_eq, if_neg h, crawlRun_zero]
    rfl
  | succ k ih =>
    intro s h
    by_cases hs : halted s
    · have hfix : crawlRun env (k + 1) s = s := by rw [crawlRun_succ_eq, if_pos hs]
      rw [hfix] at h
      exact absurd hs h
    · rw [crawlRun_succ_eq, if_neg hs]
      rw [crawlRun_succ_eq, if_neg hs] at h
      rw [show crawlRun env (k + 1) s = crawlRun env k (step env s) from by
        rw [crawlRun_succ_eq, if_neg hs]]
      exact ih (step env s) h

/-- C6: for every environment (every fetched page yields a finite link
list by construction), the crawl loop reaches a halted state — frontier
empty or page counter at the MAX_PAGES ceiling — and as long as it is not
halted the run continues with the next step, every per-URL failure included,
so no failure terminates the run. -/
theorem crawl_terminates_by_exhaustion_or_ceiling :
    (∀ env : String → FetchOutcome, ∃ n, halted (crawlRun env n initState)) ∧
    (∀ (env : String → FetchOutcome) (n : Nat) (s : CrawlState),
      ¬ halted (crawlRun env n s) →
      crawlRun env (n + 1) s = step env (crawlRun env n s)) := by
  constructor
  · intro env
    exact crawl_reaches_halt env MAX_PAGES initState.queue.length initState (by omega) (le_refl _)
  · exact crawlRun_succ_of_not_halted

/-- Witness for C6 with the always-failing environment. -/
theorem crawl_terminates_by_exhaustion_or_ceiling_witness :
    ¬ halted (crawlRun (fun _ => FetchOutcome.error) 0 initState) ∧
    crawlRun (fun _ => FetchOutcome.error) 1 initState =
      step (fun _ => FetchOutcome.error) (crawlRun (fun _ => FetchOutcome.error) 0 initState) :=
  ⟨by decide, crawl_terminates_by_exhaustion_or_ceiling.2 (fun _ => FetchOutcome.error) 0 initState
    (by decide)⟩

lemma stripFrag_no_hash (s : String) : (stripFrag s).toList.all (fun c => c != '#') = true := by
  rw [List.all_eq_true]
  intro c hc
  have hc2 : c ∈ s.toList.takeWhile (fun a => a != '#') := hc
  have := List.mem_takeWhile_imp (p := fun a => a != '#') hc2
  exact this

lemma admitOne_props (base : String) (vis : List String) (href : String) (l : String)
    (h : admitOne base vis href = some l) :
    is_valid_url l = true ∧ l.toList.all (fun c => c != '#') = true := by
  unfold admitOne at h
  dsimp only at h
  split at h
  · exact absurd h (by simp)
  case isFalse hval =>
  rw [Bool.not_eq_true', Bool.not_eq_false] at hval
  split at h
  · split at h
    · injection h with he
      subst he
      exact ⟨hval, stripFrag_no_hash _⟩
    · exact absurd h (by simp)
  · split at h
    · injection h with he
      subst he
      exact ⟨hval, stripFrag_no_hash _⟩
    · exact absurd h (by simp)

lemma admittedLinks_props (base : String) (vis : List String) (links : List String) (l : String)
    (h : l ∈ admittedLinks base vis links) :
    is_valid_url l = true ∧ l.toList.all (fun c => c != '#') = true := by
  unfold admittedLinks at h
  obtain ⟨href, _, heq⟩ := List.mem_filterMap.mp h
  exact admitOne_props base vis href l heq

lemma queueInv_step (env : String → FetchOutcome) (s : CrawlState)
    (h : ∀ v ∈ s.queue, v = START_URL ∨
      (is_valid_url v = true ∧ v.toList.all (fun c => c != '#') = true)) :
    ∀ v ∈ (step env s).queue, v = START_URL ∨
      (is_valid_url v = true ∧ v.toList.all (fun c => c != '#') = true) := by
  cases hq : s.queue with
  | nil =>
    rw [step_nil env s hq]
    exact h
  | cons u q =>
    have htail : ∀ v ∈ q, v = START_URL ∨
        (is_valid_url v = true ∧ v.toList.all (fun c => c != '#') = true) :=
      fun v hv => h v (by rw [hq]; exact List.mem_cons_of_mem _ hv)
    by_cases hv : u ∈ s.visited
    · rw [step_visited env s u q hq hv]
      exact htail
    · obtain ⟨_, _, hqp⟩ := step_unvisited env s u q hq hv
      rcases hqp with ⟨hqe, _⟩ | ⟨links, hqe, _⟩
      · rw [hqe]
        exact htail
      · rw [hqe]
        intro v hvq
        rcases List.mem_append.mp hvq with h1 | h2
        · exact htail v h1
        · exact Or.inr (admittedLinks_props _ _ _ _ h2)

lemma queueInv_crawlRun (env : String → FetchOutcome) : ∀ (n : Nat) (s : CrawlState),
    (∀ v ∈ s.queue, v = START_URL ∨
      (is_valid_url v = true ∧ v.toList.all (fun c => c != '#') = true)) →
    ∀ v ∈ (crawlRun env n s).queue, v = START_URL ∨
      (is_valid_url v = true ∧ v.toList.all (fun c => c != '#') = true) := by
  intro n
  induction n with
  | zero =>
    intro s h
    rw [crawlRun_zero]
    exact h
  | succ k ih =>
    intro s h
    rw [crawlRun_succ_eq]
    by_cases hs : halted s
    · rw [if_pos hs]
      exact h
    · rw [if_neg hs]
      exact ih (step env s) (queueInv_step env s h)

/-- C5: every URL admitted to the frontier during page processing satisfies
`is_valid_url` and contains no fragment marker, and consequently every
frontier entry in any reachable state is the seed URL or satisfies both. -/
theorem frontier_in_domain_and_fragment_free :
    (∀ (base : String) (vis : List String) (links : List String) (l : String),
      l ∈ admittedLinks base vis links →
      is_valid_url l = true ∧ l.toList.all (fun c => c != '#') = true) ∧
    (∀ (env : String → FetchOutcome) (n : Nat), ∀ v ∈ (crawlRun env n initState).queue,
      v = START_URL ∨ (is_valid_url v = true ∧ v.toList.all (fun c => c != '#') = true)) := by
  constructor
  · exact admittedLinks_props
  · intro env n
    apply queueInv_crawlRun env n initState
    intro v hv
    rcases List.mem_singleton.mp hv with rfl
    exact Or.inl rfl

/-- Witness for C5 at a concrete admitted link. -/
theorem frontier_in_domain_and_fragment_free_witness :
    is_valid_url "https://www.icmr.gov.in/STWs/diabetes.pdf" = true ∧
    ("https://www.icmr.gov.in/STWs/diabetes.pdf").toList.all (fun c => c != '#') = true :=
  frontier_in_domain_and_fragment_free.1 START_URL []
    ["https://www.icmr.gov.in/STWs/diabetes.pdf"] "https://www.icmr.gov.in/STWs/diabetes.pdf"
    (by decide)

lemma occ_append (e : CrawlEvent) (t1 t2 : List CrawlEvent) :
    occ e (t1 ++ t2) = occ e t1 + occ e t2 :=
  List.count_append e t1 t2

lemma traceInv_step (env : String → FetchOutcome) (s : CrawlState) (h : TraceInv s) :
    TraceInv (step env s) := by
  cases hq : s.queue with
  | nil =>
    rw [step_nil env s hq]
    exact h
  | cons u q =>
    by_cases hvis : u ∈ s.visited
    · rw [step_visited env s u q hq hvis]
      exact h
    · obtain ⟨hv2, ⟨d, htr, hd⟩, _⟩ := step_unvisited env s u q hq hvis
      intro w
      by_cases hwu : w = u
      · subst hwu
        obtain ⟨hu1, hu2, hu3⟩ := (h w).2 hvis
        have hdc : occ (CrawlEvent.visitInsert w) d ≤ 1 ∧
            occ (CrawlEvent.pdfDispatch w) d ≤ 1 ∧
            occ (CrawlEvent.pageProcess w) d ≤ 1 := by
          rcases hd with rfl | rfl | rfl <;> simp [occ]
        obtain ⟨hd1, hd2, hd3⟩ := hdc
        constructor
        · refine ⟨?_, ?_, ?_⟩ <;> rw [htr, occ_append] <;> omega
        · intro hnotin
          exact absurd (by rw [hv2]; exact List.mem_cons_self _ _) hnotin
      · have hdc : occ (CrawlEvent.visitInsert w) d = 0 ∧
            occ (CrawlEvent.pdfDispatch w) d = 0 ∧
            occ (CrawlEvent.pageProcess w) d = 0 := by
          rcases hd with rfl | rfl | rfl <;> simp [occ, hwu]
        obtain ⟨hd1, hd2, hd3⟩ := hdc
        have hmem : w ∈ (step env s).visited ↔ w ∈ s.visited := by
          rw [hv2]
          simp [hwu]
        constructor
        · obtain ⟨⟨h1, h2, h3⟩, _⟩ := h w
          refine ⟨?_, ?_, ?_⟩ <;> rw [htr, occ_append] <;> omega
        · intro hnotin
          obtain ⟨h1, h2, h3⟩ := (h w).2 (fun hin => hnotin (hmem.mpr hin))
          refine ⟨?_, ?_, ?_⟩ <;> rw [htr, occ_append] <;> omega

lemma traceInv_crawlRun (env : String → FetchOutcome) : ∀ (n : Nat) (s : CrawlState),
    TraceInv s → TraceInv (crawlRun env n s) := by
  intro n
  induction n with
  | zero =>
    intro s h
    rw [crawlRun_zero]
    exact h
  | succ k ih =>
    intro s h
    rw [crawlRun_succ_eq]
    by_cases hs : halted s
    · rw [if_pos hs]
      exact h
    · rw [if_neg hs]
      exact ih (step env s) (traceInv_step env s h)

lemma traceInv_init : TraceInv initState := by
  intro u
  exact ⟨⟨by simp [occ, initState], by simp [occ, initState], by simp [occ, initState]⟩,
    fun _ => ⟨rfl, rfl, rfl⟩⟩

/-- C1: in any crawl run, each URL is inserted into the visited set at most
once, dispatched to the document processor at most once, and processed by
the HTML parse-and-expand branch at most once, even though a URL may occupy
several frontier slots at a time. -/
theorem crawl_at_most_once_per_url (env : String → FetchOutcome) (n : Nat) (u : String) :
    occ (CrawlEvent.visitInsert u) (crawlRun env n initState).trace ≤ 1 ∧
    occ (CrawlEvent.pdfDispatch u) (crawlRun env n initState).trace ≤ 1 ∧
    occ (CrawlEvent.pageProcess u) (crawlRun env n initState).trace ≤ 1 :=
  ((traceInv_crawlRun env n initState traceInv_init) u).1

lemma abcEnv_seed (links : List String) :
    abcEnv links START_URL = FetchOutcome.http 200 "text/html" links := by
  unfold abcEnv
  rw [if_pos rfl]

lemma abcEnv_other (links : List String) (u : String) (h : u ≠ START_URL) :
    abcEnv links u = FetchOutcome.error := by
  unfold abcEnv
  rw [if_neg h]

lemma step_error_processed (env : String → FetchOutcome) (s : CrawlState) (u : String)
    (q : List String) (hq : s.queue = u :: q) (hnv : u ∉ s.visited)
    (henv : env u = FetchOutcome.error) :
    (step env s).queue = q ∧ (step env s).visited = u :: s.visited ∧
    (step env s).pages = s.pages ∧
    processedOrder (step env s).trace = processedOrder s.trace ++ [u] := by
  unfold step
  rw [hq]
  dsimp only
  by_cases hp : pyEndsWith (pyLower u) ".pdf" = true
  · rw [if_pos hp, if_neg hnv]
    refine ⟨rfl, rfl, rfl, ?_⟩
    unfold processedOrder
    rw [List.filterMap_append]
    rfl
  · rw [if_neg hp, if_neg hnv, henv]
    dsimp only
    refine ⟨rfl, rfl, rfl, ?_⟩
    unfold processedOrder
    rw [List.filterMap_append]
    rfl

lemma abc_step1 (links : List String) :
    step (abcEnv links) initState =
      ⟨admittedLinks START_URL [START_URL] links, [START_URL], 1,
       [CrawlEvent.visitInsert START_URL, CrawlEvent.pageProcess START_URL]⟩ := by
  unfold step initState
  dsimp only
  rw [if_neg (show ¬ pyEndsWith (pyLower START_URL) ".pdf" = true by decide)]
  rw [if_neg (show START_URL ∉ ([] : List String) by simp)]
  rw [abcEnv_seed]
  dsimp only
  rw [if_neg (show ¬ ((200 : Nat) ≠ 200) by simp)]
  rw [if_neg (show ¬ pyContains (pyLower "text/html") "application/pdf" = true by decide)]
  rw [if_pos (show pyContains (pyLower "text/html") "text/html" = true by decide)]
  rfl

/-- C4: the frontier is a strict FIFO queue: when the seed page yields the
admitted URLs a, b, c in that discovery order, the run processes the seed
and then a, b, c in exactly that relative order. -/
theorem crawl_fifo_order (links : List String) (a b c : String)
    (hadm : admittedLinks START_URL [START_URL] links = [a, b, c])
    (ha : a ≠ START_URL) (hb : b ≠ START_URL) (hc : c ≠ START_URL)
    (hba : b ≠ a) (hca : c ≠ a) (hcb : c ≠ b) :
    processedOrder (crawlRun (abcEnv links) 4 initState).trace = [START_URL, a, b, c] := by
  set E := abcEnv links with hE
  set s1 : CrawlState :=
    ⟨[a, b, c], [START_URL], 1,
     [CrawlEvent.visitInsert START_URL, CrawlEvent.pageProcess START_URL]⟩ with hs1
  have h1 : step E initState = s1 := by
    rw [hE, abc_step1, hadm]
  obtain ⟨q2, v2, p2, t2⟩ := step_error_processed E s1 a [b, c] rfl
    (by simp [hs1, ha]) (abcEnv_other links a ha)
  obtain ⟨q3, v3, p3, t3⟩ := step_error_processed E (step E s1) b [c] q2
    (by rw [v2]; simp [hs1, hba, hb]) (abcEnv_other links b hb)
  obtain ⟨q4, v4, p4, t4⟩ := step_error_processed E (step E (step E s1)) c [] q3
    (by rw [v3, v2]; simp [hs1, hcb, hca, hc]) (abcEnv_other links c hc)
  have hh0 : ¬ halted initState := by decide
  have hh1 : ¬ halted s1 := by
    rintro (h | h)
    · exact absurd h (by simp [hs1])
    · exact absurd (show MAX_PAGES ≤ 1 from h) (by decide)
  have hh2 : ¬ halted (step E s1) := by
    rintro (h | h)
    · rw [q2] at h
      exact absurd h (by simp)
    · rw [p2] at h
      exact absurd (show MAX_PAGES ≤ 1 from h) (by decide)
  have hh3 : ¬ halted (step E (step E s1)) := by
    rintro (h | h)
    · rw [q3] at h
      exact absurd h (by simp)
    · rw [p3, p2] at h
      exact absurd (show MAX_PAGES ≤ 1 from h) (by decide)
  have e1 : crawlRun E 4 initState = crawlRun E 3 s1 := by
    rw [crawlRun_succ_eq, if_neg hh0, h1]
  have e2 : crawlRun E 3 s1 = crawlRun E 2 (step E s1) := by
    rw [crawlRun_succ_eq, if_neg hh1]
  have e3 : crawlRun E 2 (step E s1) = crawlRun E 1 (step E (step E s1)) := by
    rw [crawlRun_succ_eq, if_neg hh2]
  have e4 : crawlRun E 1 (step E (step E s1)) = step E (step E (step E s1)) := by
    rw [crawlRun_succ_eq, if_neg hh3, crawlRun_zero]
  rw [e1, e2, e3, e4, t4, t3, t2]
  rfl

/-- Witness for C4 at three concrete discovered links. -/
theorem crawl_fifo_order_witness :
    processedOrder (crawlRun (abcEnv
      ["https://www.icmr.gov.in/stws/a.pdf", "https://www.icmr.gov.in/stw-page",
       "https://www.icmr.gov.in/guidelines-page"]) 4 initState).trace =
      [START_URL, "https://www.icmr.gov.in/stws/a.pdf", "https://www.icmr.gov.in/stw-page",
       "https://www.icmr.gov.in/guidelines-page"] :=
  crawl_fifo_order
    ["https://www.icmr.gov.in/stws/a.pdf", "https://www.icmr.gov.in/stw-page",
     "https://www.icmr.gov.in/guidelines-page"]
    "https://www.icmr.gov.in/stws/a.pdf" "https://www.icmr.gov.in/stw-page"
    "https://www.icmr.gov.in/guidelines-page"
    (by decide) (by decide) (by decide) (by decide) (by decide) (by decide) (by decide)
